import Mathlib

/-!
Verification of the scraping / persistence pipeline of the `estate`
repository (files `scraper/web2.py`, `scraper/fastscrap3.py`,
`scraper/webscrap2.py`), via a shallow embedding in Lean 4.

The embedding follows the Python source:

* `dedupBy` models pandas `DataFrame.drop_duplicates(subset=key, keep='first')`:
  a left-to-right scan that keeps a row iff its key has not been seen yet.
* `Row` / `PropertyData` model the record dictionaries built by
  `web2.extract_property_data`, `mergeTables` / `writtenTable` model
  `web2.save_to_csv`'s three branches (file absent, readable, unreadable).
* `DetailPage` / `DetailRecord` model `fastscrap3.extract_property_details`
  (regex match results abstracted as `Option String` fields, plain substring
  tests over the page text kept concrete), `save_to_csv3` models
  `fastscrap3.save_to_csv`, `extractUrls3` / `extractUrls2` model
  `extract_urls_from_page` of `fastscrap3.py` / `webscrap2.py`.
-/

namespace Estate

/-- Does the character list start with `pat`? -/
def leadsWith : List Char → List Char → Bool
  | [], _ => true
  | _ :: _, [] => false
  | p :: ps, c :: cs => p = c && leadsWith ps cs

/-- Does the character list contain `pat` as a contiguous run? -/
def hasSubAux (pat : List Char) : List Char → Bool
  | [] => leadsWith pat []
  | c :: cs => leadsWith pat (c :: cs) || hasSubAux pat cs

/-- Python `sub in s` substring test. -/
def hasSub (s pat : String) : Bool :=
  hasSubAux pat.toList s.toList

/-- Python `str.strip()`: drop leading and trailing whitespace. -/
def pyStrip (s : String) : String :=
  String.mk (((s.data.dropWhile Char.isWhitespace).reverse.dropWhile
    Char.isWhitespace).reverse)

/-- Python `str.lower()`, character-wise. -/
def pyLower (s : String) : String :=
  String.mk (s.data.map Char.toLower)

/-- Python slicing `s[:n]` by characters. -/
def pyTake (n : Nat) (s : String) : String :=
  String.mk (s.data.take n)

/-- Python `str.startswith(pre)`. -/
def pyStarts (s pre : String) : Bool :=
  leadsWith pre.data s.data

/-- Python `s.replace('\n', ' ')` — the single-character instance used by
the deposit field, applied character-wise. -/
def replaceNl (s : String) : String :=
  String.mk (s.data.map (fun ch => if ch = '\n' then ' ' else ch))

/-- pandas `drop_duplicates(subset=key, keep='first')`, generalised over the
key function; `seen` is the set of keys already encountered. -/
def dedupBy {α κ : Type} [DecidableEq κ] (key : α → κ) : List α → Finset κ → List α
  | [], _ => []
  | a :: l, s => if key a ∈ s then dedupBy key l s else a :: dedupBy key l (insert (key a) s)

section DedupBy

variable {α κ : Type} [DecidableEq κ] {key : α → κ}

theorem mem_of_mem_dedupBy {a : α} : ∀ {l : List α} {s : Finset κ},
    a ∈ dedupBy key l s → a ∈ l
  | [], _, h => by simp [dedupBy] at h
  | b :: l, s, h => by
    by_cases hb : key b ∈ s
    · simp only [dedupBy, if_pos hb] at h
      exact List.mem_cons_of_mem _ (mem_of_mem_dedupBy h)
    · simp only [dedupBy, if_neg hb, List.mem_cons] at h
      rcases h with h | h
      · exact h ▸ List.mem_cons_self _ _
      · exact List.mem_cons_of_mem _ (mem_of_mem_dedupBy h)

theorem key_notMem_of_mem_dedupBy {a : α} : ∀ {l : List α} {s : Finset κ},
    a ∈ dedupBy key l s → key a ∉ s
  | [], _, h => by simp [dedupBy] at h
  | b :: l, s, h => by
    by_cases hb : key b ∈ s
    · simp only [dedupBy, if_pos hb] at h
      exact key_notMem_of_mem_dedupBy h
    · simp only [dedupBy, if_neg hb, List.mem_cons] at h
      rcases h with h | h
      · exact h ▸ hb
      · intro hk
        exact key_notMem_of_mem_dedupBy h (Finset.mem_insert_of_mem hk)

theorem nodup_keys_dedupBy : ∀ (l : List α) (s : Finset κ),
    ((dedupBy key l s).map key).Nodup
  | [], _ => by simp [dedupBy]
  | b :: l, s => by
    by_cases hb : key b ∈ s
    · simpa [dedupBy, if_pos hb] using nodup_keys_dedupBy l s
    · simp only [dedupBy, if_neg hb, List.map_cons, List.nodup_cons]
      refine ⟨?_, nodup_keys_dedupBy l _⟩
      intro hmem
      rcases List.mem_map.1 hmem with ⟨c, hc, hck⟩
      exact key_notMem_of_mem_dedupBy hc (hck ▸ Finset.mem_insert_self _ _)

theorem mem_keys_dedupBy {k : κ} : ∀ {l : List α} {s : Finset κ},
    k ∈ (dedupBy key l s).map key ↔ k ∈ l.map key ∧ k ∉ s
  | [], s => by simp [dedupBy]
  | b :: l, s => by
    by_cases hb : key b ∈ s
    · simp only [dedupBy, if_pos hb, List.map_cons, List.mem_cons]
      rw [mem_keys_dedupBy]
      constructor
      · rintro ⟨hk, hks⟩
        exact ⟨Or.inr hk, hks⟩
      · rintro ⟨hk | hk, hks⟩
        · exact absurd (hk ▸ hb) hks
        · exact ⟨hk, hks⟩
    · simp only [dedupBy, if_neg hb, List.map_cons, List.mem_cons]
      rw [mem_keys_dedupBy]
      constructor
      · rintro (rfl | ⟨hk, hks⟩)
        · exact ⟨Or.inl rfl, hb⟩
        · exact ⟨Or.inr hk, fun hs => hks (Finset.mem_insert_of_mem hs)⟩
      · rintro ⟨rfl | hk, hks⟩
        · exact Or.inl rfl
        · by_cases hkb : k = key b
          · exact Or.inl hkb
          · exact Or.inr ⟨hk, by simp [Finset.mem_insert, hkb, hks]⟩

theorem find?_dedupBy {k : κ} : ∀ {l : List α} {s : Finset κ}, k ∉ s →
    (dedupBy key l s).find? (fun a => decide (key a = k))
      = l.find? (fun a => decide (key a = k))
  | [], s, _ => by simp [dedupBy]
  | b :: l, s, hks => by
    by_cases hb : key b ∈ s
    · have hbk : ¬ (key b = k) := by
        rintro rfl
        exact hks hb
      simp only [dedupBy, if_pos hb]
      rw [List.find?_cons_of_neg _ (by simp [hbk])]
      exact find?_dedupBy hks
    · by_cases hbk : key b = k
      · subst hbk
        simp only [dedupBy, if_neg hb]
        rw [List.find?_cons_of_pos _ (by simp), List.find?_cons_of_pos _ (by simp)]
      · simp only [dedupBy, if_neg hb]
        have h1 : (b :: dedupBy key l (insert (key b) s)).find? (fun a => decide (key a = k))
            = (dedupBy key l (insert (key b) s)).find? (fun a => decide (key a = k)) :=
          List.find?_cons_of_neg _ (by simp [hbk])
        have h2 : (b :: l).find? (fun a => decide (key a = k))
            = l.find? (fun a => decide (key a = k)) :=
          List.find?_cons_of_neg _ (by simp [hbk])
        rw [h1, h2]
        have hk2 : k ∉ insert (key b) s := by
          simp only [Finset.mem_insert, not_or]
          exact ⟨Ne.symm hbk, hks⟩
        exact find?_dedupBy hk2

theorem dedupBy_append : ∀ (l m : List α) (s : Finset κ),
    dedupBy key (l ++ m) s = dedupBy key l s ++ dedupBy key m (s ∪ (l.map key).toFinset)
  | [], m, s => by simp [dedupBy]
  | b :: l, m, s => by
    by_cases hb : key b ∈ s
    · have hseen : s ∪ (List.map key (b :: l)).toFinset = s ∪ (l.map key).toFinset := by
        ext x
        simp only [List.map_cons, List.toFinset_cons, Finset.mem_union, Finset.mem_insert]
        constructor
        · rintro (hx | rfl | hx)
          · exact Or.inl hx
          · exact Or.inl hb
          · exact Or.inr hx
        · rintro (hx | hx)
          · exact Or.inl hx
          · exact Or.inr (Or.inr hx)
      rw [List.cons_append]
      simp only [dedupBy, if_pos hb]
      rw [dedupBy_append l m s, hseen]
    · have hseen : insert (key b) s ∪ (l.map key).toFinset
        = s ∪ (List.map key (b :: l)).toFinset := by
        ext x
        simp only [List.map_cons, List.toFinset_cons, Finset.mem_union, Finset.mem_insert]
        tauto
      rw [List.cons_append]
      simp only [dedupBy, if_neg hb]
      rw [dedupBy_append l m (insert (key b) s), hseen, List.cons_append]

theorem dedupBy_eq_nil {l : List α} {s : Finset κ} (h : ∀ a ∈ l, key a ∈ s) :
    dedupBy key l s = [] := by
  induction l with
  | nil => simp [dedupBy]
  | cons b l ih =>
    have hb : key b ∈ s := h b (List.mem_cons_self _ _)
    simp only [dedupBy, if_pos hb]
    exact ih fun a ha => h a (List.mem_cons_of_mem _ ha)

theorem dedupBy_eq_self {l : List α} {s : Finset κ} (hnotin : ∀ a ∈ l, key a ∉ s)
    (hnodup : (l.map key).Nodup) : dedupBy key l s = l := by
  induction l generalizing s with
  | nil => simp [dedupBy]
  | cons b l ih =>
    have hb : key b ∉ s := hnotin b (List.mem_cons_self _ _)
    simp only [dedupBy, if_neg hb, List.cons.injEq, true_and]
    simp only [List.map_cons, List.nodup_cons] at hnodup
    refine ih ?_ hnodup.2
    intro a ha
    simp only [Finset.mem_insert, not_or]
    refine ⟨?_, hnotin a (List.mem_cons_of_mem _ ha)⟩
    intro hk
    exact hnodup.1 (hk ▸ List.mem_map_of_mem key ha)

theorem dedupBy_idem (l : List α) (s : Finset κ) :
    dedupBy key (dedupBy key l s) s = dedupBy key l s :=
  dedupBy_eq_self (fun _ ha => key_notMem_of_mem_dedupBy ha) (nodup_keys_dedupBy l s)

theorem mem_dedupBy_id {β : Type} [DecidableEq β] {a : β} {l : List β} {s : Finset β} :
    a ∈ dedupBy id l s ↔ a ∈ l ∧ a ∉ s := by
  induction l generalizing s with
  | nil => simp [dedupBy]
  | cons b l ih =>
    by_cases hb : b ∈ s
    · simp only [dedupBy, id_eq, if_pos hb, List.mem_cons]
      rw [ih]
      constructor
      · rintro ⟨ha, has⟩
        exact ⟨Or.inr ha, has⟩
      · rintro ⟨rfl | ha, has⟩
        · exact absurd hb has
        · exact ⟨ha, has⟩
    · simp only [dedupBy, id_eq, if_neg hb, List.mem_cons]
      rw [ih]
      constructor
      · rintro (rfl | ⟨ha, has⟩)
        · exact ⟨Or.inl rfl, hb⟩
        · exact ⟨Or.inr ha, fun hs => has (Finset.mem_insert_of_mem hs)⟩
      · rintro ⟨rfl | ha, has⟩
        · exact Or.inl rfl
        · by_cases hab : a = b
          · exact Or.inl hab
          · exact Or.inr ⟨ha, by simp [Finset.mem_insert, hab, has]⟩

theorem find?_append_of_isSome {p : α → Bool} {l₁ : List α} (l₂ : List α)
    (h : (l₁.find? p).isSome) : (l₁ ++ l₂).find? p = l₁.find? p := by
  induction l₁ with
  | nil => simp at h
  | cons b l ih =>
    by_cases hb : p b
    · simp [List.find?_cons, hb]
    · simp only [List.find?_cons, Bool.not_eq_true] at h ⊢
      simp only [hb] at h ⊢
      rw [List.cons_append, List.find?_cons]
      simp only [hb]
      exact ih h

end DedupBy

/-! ## `scraper/web2.py`: record model, extractor, and `save_to_csv` -/

/-- The record dictionary built by `web2.extract_property_data` (the nine
keys of the `property_data` template, `web2.py:99-109`). -/
structure PropertyData where
  title : String
  location : String
  price : String
  propertyType : String
  area : String
  bedrooms : String
  furnishing : String
  postedBy : String
  rating : String
  deriving DecidableEq, Repr

/-- One row of the persisted table: a record plus the `Scraped_Date` column
added by `web2.save_to_csv` (`web2.py:315`). -/
structure Row where
  title : String
  location : String
  price : String
  propertyType : String
  area : String
  bedrooms : String
  furnishing : String
  postedBy : String
  rating : String
  scrapedDate : String
  deriving DecidableEq, Repr

/-- `new_df['Scraped_Date'] = <timestamp>` (`web2.py:315`). -/
def addDate (t : String) (p : PropertyData) : Row :=
  ⟨p.title, p.location, p.price, p.propertyType, p.area, p.bedrooms,
    p.furnishing, p.postedBy, p.rating, t⟩

/-- The natural key used by `drop_duplicates(subset=['Property Title',
'Location'])` (`web2.py:336-339`). -/
def keyOf (r : Row) : String × String :=
  (r.title, r.location)

/-- The natural key of a not-yet-dated record. -/
def recKey (p : PropertyData) : String × String :=
  (p.title, p.location)

/-- The load-success branch of `web2.save_to_csv` (`web2.py:321-347`):
concatenate existing rows before the timestamped new batch, then drop
duplicate natural keys keeping the first occurrence. -/
def mergeTables (t : String) (B : List PropertyData) (E : List Row) : List Row :=
  dedupBy keyOf (E ++ B.map (addDate t)) ∅

/-- The three possible states of `output_path` before a save: no file,
a file `pd.read_csv` can load, or a file it cannot load. -/
inductive DiskState : Type
  | absent : DiskState
  | readable : List Row → DiskState
  | unreadable : String → DiskState

/-- The table `web2.save_to_csv` writes to `output_path`, by prior disk
state; `none` when it writes nothing (empty batch, `web2.py:308-310`).
Branches: file exists and loads (`web2.py:321-347`), file exists but fails
to load — batch written fresh, with no dedup (`web2.py:360-372`), file
absent — batch deduplicated and written (`web2.py:374-384`). -/
def writtenTable (t : String) (B : List PropertyData) (d : DiskState) : Option (List Row) :=
  if B.isEmpty then none
  else some (match d with
    | .absent => dedupBy keyOf (B.map (addDate t)) ∅
    | .readable E => mergeTables t B E
    | .unreadable _ => B.map (addDate t))

/-- The readable-state transition of `web2.save_to_csv` as a function on the
on-disk row list: no write for an empty batch, merge otherwise. -/
def saveReadable (t : String) (B : List PropertyData) (E : List Row) : List Row :=
  if B.isEmpty then E else mergeTables t B E

/-- What a file at `output_path` can hold: a loadable table, or bytes
`pd.read_csv` rejects. -/
inductive Content : Type
  | table : List Row → Content
  | corrupt : String → Content
  deriving DecidableEq

/-- `output_path.replace('.csv', f'_backup_<timestamp>.csv')` (`web2.py:365`)
for the default `data.csv` output name. -/
def backupName (t : String) : String :=
  "data_backup_" ++ t ++ ".csv"

/-- `web2.save_to_csv` as a transition on the file system: the resulting
content of `output_path` and the list of backup files it creates.
Empty batch: no write, no backup (`web2.py:308-310`). File absent: dedup and
write fresh (`web2.py:374-384`). File loads: merge (`web2.py:321-347`).
File fails to load: rename it to the timestamped backup path, then write the
batch fresh (`web2.py:360-372`). -/
def saveFS (t : String) (B : List PropertyData) (fs : Option Content) :
    Option Content × List (String × Content) :=
  if B.isEmpty then (fs, [])
  else match fs with
    | none => (some (.table (dedupBy keyOf (B.map (addDate t)) ∅)), [])
    | some (.table E) => (some (.table (mergeTables t B E)), [])
    | some (.corrupt b) => (some (.table (B.map (addDate t))), [(backupName t, .corrupt b)])

/-- The inputs of `web2.extract_property_data`, one `Option String` per CSS
selector the function queries (`web2.py:111-178`); `none` models
`find_element` raising (the field's `try` block then leaves the sentinel). -/
structure ListingContent where
  heading : Option String
  h2 : Option String
  locationName : Option String
  locRating : Option String
  furnished : Option String
  propType : Option String
  priceSpan : Option String
  priceWrap : Option String
  perSqft : Option String
  ellipsisText : Option String
  deriving DecidableEq, Repr

/-- The title computed at `web2.py:113-121`: the heading selector's text,
else the `h2` fallback, else the `"N/A"` sentinel, stripped. -/
def titleOf (c : ListingContent) : String :=
  match c.heading with
  | some s => pyStrip s
  | none => match c.h2 with
    | some s => pyStrip s
    | none => "N/A"

/-- `web2.extract_property_data` (`web2.py:97-188`): each field falls back
to `"N/A"` when its selector fails; `Bedrooms` is set only when the per-sqft
text contains `"Bedroom"` (`web2.py:162-169`); `Area` only when the ellipsis
text is non-empty after stripping (`web2.py:171-178`); the record is dropped
when the title is `"N/A"` or shorter than 3 characters (`web2.py:180-182`). -/
def extract_property_data (c : ListingContent) : Option PropertyData :=
  let title := titleOf c
  let d : PropertyData :=
    { title := title
      location := (c.locationName.map pyStrip).getD "N/A"
      price := match c.priceSpan with
        | some s => pyStrip s
        | none => (c.priceWrap.map pyStrip).getD "N/A"
      propertyType := (c.propType.map pyStrip).getD "N/A"
      area := match c.ellipsisText with
        | some s => if pyStrip s ≠ "" then pyStrip s else "N/A"
        | none => "N/A"
      bedrooms := match c.perSqft with
        | some s => if hasSub (pyStrip s) "Bedroom" then pyStrip s else "N/A"
        | none => "N/A"
      furnishing := (c.furnished.map pyStrip).getD "N/A"
      postedBy := "N/A"
      rating := (c.locRating.map pyStrip).getD "N/A" }
  if title = "N/A" ∨ title.length < 3 then none else some d

/-! ## `scraper/fastscrap3.py`: detail extractor, CSV writer, URL walk -/

/-- A rendered detail page as seen by `fastscrap3.extract_property_details`
(`fastscrap3.py:196-301`): the optional `h1` tag, the flattened page text
(used by the plain `'…' in all_text` membership tests), and the result of
each `re.search` / keyword-loop / `re.findall` site-specific pattern,
abstracted as an `Option String` (`none` = no match). -/
structure DetailPage where
  h1 : Option String
  allText : String
  priceMatch : Option String
  bedMatch : Option String
  bathMatch : Option String
  balconyMatch : Option String
  areaMatch : Option String
  rateMatch : Option String
  depositMatch : Option String
  locationMatch : Option String
  addressMatch : Option String
  dateMatch : Option String
  availableMatch : Option String
  deriving DecidableEq, Repr

/-- The 21-key record dictionary of `fastscrap3.extract_property_details`
(template at `fastscrap3.py:172-194`). -/
structure DetailRecord where
  title : String
  url : String
  location : String
  address : String
  price : String
  ratePerSqft : String
  deposit : String
  propertyType : String
  roomType : String
  bedrooms : String
  bathrooms : String
  balconies : String
  furnishing : String
  carpetArea : String
  availableFrom : String
  availableFor : String
  postedBy : String
  postedDate : String
  rating : String
  nearbyPlaces : String
  scrapedDate : String
  deriving DecidableEq, Repr

/-- The pure extraction body of `fastscrap3.extract_property_details`
(`fastscrap3.py:216-302`): every field defaults to the `"N/A"` sentinel and
is overwritten only when its pattern matched; `Room_Type`, `Available_For`,
`Rating` and `Nearby_Places` are never extracted at all. In the source this
path always returns the record dictionary — `None` is returned only when
the driver is unavailable or navigation raises (`fastscrap3.py:168-170`,
`304-306`), never by field extraction. -/
def extract_property_details (url ts : String) (p : DetailPage) : DetailRecord :=
  { title := (p.h1.map pyStrip).getD "N/A"
    url := url
    location := (p.locationMatch.map (fun s => pyTake 80 (pyStrip s))).getD "N/A"
    address := (p.addressMatch.map (fun s => pyTake 100 (pyStrip s))).getD "N/A"
    price := (p.priceMatch.map pyStrip).getD "N/A"
    ratePerSqft := (p.rateMatch.map (fun s => "₹" ++ s)).getD "N/A"
    deposit := (p.depositMatch.map replaceNl).getD "N/A"
    propertyType :=
      if hasSub p.allText "Independent" then "Independent"
      else if hasSub p.allText "Apartment" ∨ hasSub p.allText "Flat" then "Apartment/Flat"
      else if hasSub p.allText "Villa" then "Villa"
      else "N/A"
    roomType := "N/A"
    bedrooms := p.bedMatch.getD "N/A"
    bathrooms := p.bathMatch.getD "N/A"
    balconies := p.balconyMatch.getD "N/A"
    furnishing :=
      if hasSub p.allText "Semi-Furnished" then "Semi-Furnished"
      else if hasSub p.allText "Furnished" ∧ ¬ hasSub p.allText "Unfurnished" then "Furnished"
      else if hasSub p.allText "Unfurnished" then "Unfurnished"
      else "N/A"
    carpetArea := (p.areaMatch.map (fun s => s ++ " sq.ft")).getD "N/A"
    availableFrom :=
      if hasSub p.allText "Immediate" ∨ hasSub p.allText "immediate" then "Immediate"
      else (p.availableMatch.map pyStrip).getD "N/A"
    availableFor := "N/A"
    postedBy :=
      if hasSub p.allText "Dealer" then "Dealer"
      else if hasSub p.allText "Owner" then "Owner"
      else "N/A"
    postedDate := (p.dateMatch.map pyStrip).getD "N/A"
    rating := "N/A"
    nearbyPlaces := "N/A"
    scrapedDate := ts }

/-- The fixed column header of `fastscrap3.save_to_csv`
(`fastscrap3.py:402-408`). -/
def COLUMNS : List String :=
  ["Property_Title", "Location", "Address", "Price",
   "Rate_per_sqft", "Deposit", "Property_Type", "Room_Type",
   "Bedrooms", "Bathrooms", "Balconies", "Furnishing", "Carpet_Area",
   "Available_From", "Available_For", "Posted_By", "Posted_Date",
   "Rating", "Nearby_Places", "Scraped_Date", "Property_URL"]

/-- A record as the keyed cell list pandas sees (`pd.DataFrame(properties)`),
in the dictionary-literal order of `fastscrap3.py:172-194`. -/
def recCells (r : DetailRecord) : List (String × String) :=
  [("Property_Title", r.title), ("Property_URL", r.url), ("Location", r.location),
   ("Address", r.address), ("Price", r.price), ("Rate_per_sqft", r.ratePerSqft),
   ("Deposit", r.deposit), ("Property_Type", r.propertyType), ("Room_Type", r.roomType),
   ("Bedrooms", r.bedrooms), ("Bathrooms", r.bathrooms), ("Balconies", r.balconies),
   ("Furnishing", r.furnishing), ("Carpet_Area", r.carpetArea),
   ("Available_From", r.availableFrom), ("Available_For", r.availableFor),
   ("Posted_By", r.postedBy), ("Posted_Date", r.postedDate), ("Rating", r.rating),
   ("Nearby_Places", r.nearbyPlaces), ("Scraped_Date", r.scrapedDate)]

/-- One CSV row: the `for col in columns: if col not in df.columns:
df[col] = "N/A"` fill followed by the `df = df[columns]` projection
(`fastscrap3.py:410-414`), modelled cell-wise. -/
def rowFor (cells : List (String × String)) : List String :=
  COLUMNS.map (fun c => ((cells.lookup c).getD "N/A"))

/-- The table `fastscrap3.save_to_csv` writes (`fastscrap3.py:397-417`):
one row per accumulated record, projected onto the fixed column list. -/
def save_to_csv3 (recs : List DetailRecord) : List (List String) :=
  recs.map (fun r => rowFor (recCells r))

/-- `f"dataset_optimized_{datetime.now().strftime(...)}.csv"`
(`fastscrap3.py:416`). -/
def csvName (t : String) : String :=
  "dataset_optimized_" ++ t ++ ".csv"

/-- `fastscrap3.save_to_csv` as a transition on the file system (file name →
CSV table): `df.to_csv(filename)` stores the new table at the generated name
and touches nothing else. -/
def saveCsv3FS (t : String) (recs : List DetailRecord)
    (fs : String → Option (List (List String))) : String → Option (List (List String)) :=
  fun name => if name = csvName t then some (save_to_csv3 recs) else fs name

/-- `self.base_url` (`fastscrap3.py:41`, `webscrap2.py`). -/
def baseUrl : String :=
  "https://www.99acres.com"

/-- The keyword heuristic of `extract_urls_from_page`
(`fastscrap3.py:144-146`, `webscrap2.py:193-195`): the lower-cased href must
contain one of the detail-page markers and the `spid-` marker. -/
def kwPred (href : String) : Bool :=
  let l := pyLower href
  (hasSub l "bhk" || hasSub l "bedroom" || hasSub l "independent" ||
     hasSub l "flat" || hasSub l "apartment") && hasSub l "spid-"

/-- Normalisation to an absolute URL (`fastscrap3.py:148-149`,
`webscrap2.py:196-197`). -/
def normalizeUrl (href : String) : String :=
  if pyStarts href "http" then href
  else if pyStarts href "/" then baseUrl ++ href
  else baseUrl ++ "/" ++ href

/-- The loop body of `fastscrap3.extract_urls_from_page`
(`fastscrap3.py:138-152`): keep a matching link's normalised URL unless it
contains `/search/` or was already collected. -/
def urlStep (acc : List String) (href : String) : List String :=
  if kwPred href then
    let h := normalizeUrl href
    if ¬ hasSub h "/search/" ∧ h ∉ acc then acc ++ [h] else acc
  else acc

/-- `fastscrap3.extract_urls_from_page` on the page's hyperlink targets
(`fastscrap3.py:135-157`), ending with the redundant
`list(dict.fromkeys(...))` pass (`fastscrap3.py:154`). -/
def extractUrls3 (links : List String) : List String :=
  dedupBy id (links.foldl urlStep []) ∅

/-- `webscrap2.extract_urls_from_page` on the page's hyperlink targets
(`webscrap2.py:188-201`): same filter, but duplicates are only removed by
the final `list(dict.fromkeys(...))` pass. -/
def extractUrls2 (links : List String) : List String :=
  dedupBy id (links.filterMap (fun href =>
    if kwPred href then
      let h := normalizeUrl href
      if hasSub h "/search/" then none else some h
    else none)) ∅

/-- STEP 2 of `fastscrap3.scrape_all` (`fastscrap3.py:358-381`): each URL's
future yields either a record (appended under the lock) or nothing (fetch
gave up / navigation raised — logged and skipped); `order` is the
`as_completed` completion order of the URLs. -/
def collectDetails (extract : String → Option DetailRecord) (order : List String) :
    List DetailRecord :=
  order.filterMap extract

/-- The observable outcome of one `fastscrap3.scrape_all` run. -/
structure ScrapeRun where
  pages : List Nat
  urls : List String
  records : List DetailRecord
  success : Bool
  written : List String
  deriving Repr

/-- The listing pages submitted by `fastscrap3.scrape_all`:
`range(36, num_pages + 1)` (`fastscrap3.py:336`). -/
def pagesWalked (numPages : Nat) : List Nat :=
  List.range' 36 (numPages + 1 - 36)

/-- `fastscrap3.scrape_all` (`fastscrap3.py:310-395`) with the per-page URL
fetch and the per-URL detail fetch abstracted as functions: walk the pages,
dedupe the collected URLs (`fastscrap3.py:348`), abort with `False` and no
file when no URL was found (`fastscrap3.py:350-352`) or no record survived
(`fastscrap3.py:384-389`), otherwise save and return `True`. -/
def scrape_all (fetchUrls : Nat → List String) (extract : String → Option DetailRecord)
    (t : String) (numPages : Nat) : ScrapeRun :=
  let pages := pagesWalked numPages
  let urls := dedupBy id (pages.foldl (fun acc p => acc ++ fetchUrls p) []) ∅
  if urls.isEmpty then ⟨pages, urls, [], false, []⟩
  else
    let recs := collectDetails extract urls
    if recs.isEmpty then ⟨pages, urls, recs, false, []⟩
    else ⟨pages, urls, recs, true, [csvName t]⟩

/-! ## Helper lemmas -/

theorem keyOf_addDate (t : String) (p : PropertyData) : keyOf (addDate t p) = recKey p :=
  rfl

theorem map_keyOf_addDate (t : String) (B : List PropertyData) :
    (B.map (addDate t)).map keyOf = B.map recKey := by
  rw [List.map_map]
  rfl

theorem eq_of_nodup_keys {α κ : Type} {key : α → κ} : ∀ {l : List α},
    (l.map key).Nodup → ∀ {a b : α}, a ∈ l → b ∈ l → key a = key b → a = b
  | [], _, a, _, ha, _, _ => by simp at ha
  | c :: l, h, a, b, ha, hb, hk => by
    simp only [List.map_cons, List.nodup_cons] at h
    rcases List.mem_cons.1 ha with rfl | ha' <;> rcases List.mem_cons.1 hb with rfl | hb'
    · rfl
    · exact absurd (by rw [hk]; exact List.mem_map_of_mem key hb') h.1
    · exact absurd (by rw [← hk]; exact List.mem_map_of_mem key ha') h.1
    · exact eq_of_nodup_keys h.2 ha' hb' hk

theorem length_filterMap_eq_countP {α β : Type} (f : α → Option β) (l : List α) :
    (l.filterMap f).length = l.countP (fun a => (f a).isSome) := by
  induction l with
  | nil => rfl
  | cons a l ih =>
    cases hfa : f a <;> simp [List.filterMap_cons, hfa, List.countP_cons, ih]

/-- Merging the same batch on top of its own merge result changes nothing:
every key of the re-merged batch is already present, so `drop_duplicates`
with `keep='first'` discards the whole second copy. -/
theorem mergeTables_merge_self (t₁ t₂ : String) (B : List PropertyData) (E : List Row) :
    mergeTables t₂ B (mergeTables t₁ B E) = mergeTables t₁ B E := by
  unfold mergeTables
  have h2 : dedupBy keyOf (B.map (addDate t₂))
      (∅ ∪ ((dedupBy keyOf (E ++ B.map (addDate t₁)) ∅).map keyOf).toFinset) = [] := by
    apply dedupBy_eq_nil
    intro a ha
    rcases List.mem_map.1 ha with ⟨p, hp, rfl⟩
    rw [keyOf_addDate]
    apply Finset.mem_union_right
    rw [List.mem_toFinset, mem_keys_dedupBy]
    refine ⟨?_, Finset.not_mem_empty _⟩
    rw [List.map_append]
    apply List.mem_append_right
    rw [map_keyOf_addDate]
    exact List.mem_map_of_mem recKey hp
  rw [dedupBy_append, h2, List.append_nil, dedupBy_idem]

/-! ## Claim theorems -/

/-- C1: merge tie-break. When `web2.save_to_csv` merges a new batch into a
readable existing table and some existing row has natural key `k`, then the
merged table contains a row with key `k`, and every merged row with key `k`
is exactly the first existing row with that key — so on a key collision the
existing row's values are retained and the newly scraped row is dropped. -/
theorem web2_merge_tiebreak_existing_wins (t : String) (B : List PropertyData)
    (E : List Row) (e : Row) (he : e ∈ E) :
    (∃ x ∈ mergeTables t B E, keyOf x = keyOf e) ∧
    (∀ x ∈ mergeTables t B E, keyOf x = keyOf e →
      E.find? (fun r => decide (keyOf r = keyOf e)) = some x) := by
  have hsomeE : ((E.find? (fun r => decide (keyOf r = keyOf e))).isSome) :=
    List.find?_isSome.2 ⟨e, he, by simp⟩
  have hfind : (mergeTables t B E).find? (fun r => decide (keyOf r = keyOf e))
      = E.find? (fun r => decide (keyOf r = keyOf e)) := by
    unfold mergeTables
    rw [find?_dedupBy (Finset.not_mem_empty _)]
    exact find?_append_of_isSome _ hsomeE
  obtain ⟨f, hf⟩ := Option.isSome_iff_exists.1 hsomeE
  have hfmem : f ∈ mergeTables t B E :=
    List.mem_of_find?_eq_some (by rw [hfind]; exact hf)
  have hfkey : keyOf f = keyOf e := by
    have := List.find?_some hf
    simpa using this
  constructor
  · exact ⟨f, hfmem, hfkey⟩
  · intro x hx hxkey
    have hnodup : ((mergeTables t B E).map keyOf).Nodup := nodup_keys_dedupBy _ _
    have : x = f := eq_of_nodup_keys hnodup hx hfmem (by rw [hxkey, hfkey])
    rw [this]
    exact hf

/-- C1 witness: a concrete existing row and a same-key new row with a
different price; the merge keeps the existing row. -/
theorem web2_merge_tiebreak_existing_wins_witness :
    (⟨"Flat A", "Delhi", "1000", "x", "a", "b", "f", "p", "r", "D1"⟩ : Row)
      ∈ [(⟨"Flat A", "Delhi", "1000", "x", "a", "b", "f", "p", "r", "D1"⟩ : Row)] ∧
    (∃ x ∈ mergeTables "D2" [⟨"Flat A", "Delhi", "2000", "x", "a", "b", "f", "p", "r"⟩]
        [⟨"Flat A", "Delhi", "1000", "x", "a", "b", "f", "p", "r", "D1"⟩],
      keyOf x = keyOf (⟨"Flat A", "Delhi", "1000", "x", "a", "b", "f", "p", "r", "D1"⟩ : Row)) ∧
    (∀ x ∈ mergeTables "D2" [⟨"Flat A", "Delhi", "2000", "x", "a", "b", "f", "p", "r"⟩]
        [⟨"Flat A", "Delhi", "1000", "x", "a", "b", "f", "p", "r", "D1"⟩],
      keyOf x = keyOf (⟨"Flat A", "Delhi", "1000", "x", "a", "b", "f", "p", "r", "D1"⟩ : Row) →
      [(⟨"Flat A", "Delhi", "1000", "x", "a", "b", "f", "p", "r", "D1"⟩ : Row)].find?
          (fun r => decide (keyOf r = keyOf (⟨"Flat A", "Delhi", "1000", "x", "a", "b", "f", "p", "r", "D1"⟩ : Row)))
        = some x) :=
  ⟨by decide, web2_merge_tiebreak_existing_wins "D2" _ _ _ (by decide)⟩

/-- C3: merge idempotence. For every batch and every readable existing
table, running `web2.save_to_csv` twice with the same batch leaves the same
on-disk rows as running it once (for an empty batch neither run writes;
otherwise the second merge's duplicates are all dropped). -/
theorem web2_merge_idempotent (t₁ t₂ : String) (B : List PropertyData) (E : List Row) :
    saveReadable t₂ B (saveReadable t₁ B E) = saveReadable t₁ B E := by
  by_cases hB : B.isEmpty
  · simp [saveReadable, hB]
  · simp only [saveReadable, hB, Bool.false_eq_true, if_false]
    exact mergeTables_merge_self t₁ t₂ B E

/-- C9: `fastscrap3.scrape_all` walks `range(36, num_pages + 1)`; for any
`num_pages` below 36 (such as the declared default 35) it visits no listing
page, collects no URL, returns `False`, and writes no file. -/
theorem scrape_all_empty_below_36 (fetchUrls : Nat → List String)
    (extract : String → Option DetailRecord) (t : String) (numPages : Nat)
    (h : numPages < 36) :
    (scrape_all fetchUrls extract t numPages).pages = [] ∧
    (scrape_all fetchUrls extract t numPages).urls = [] ∧
    (scrape_all fetchUrls extract t numPages).success = false ∧
    (scrape_all fetchUrls extract t numPages).written = [] := by
  have hp : pagesWalked numPages = [] := by
    unfold pagesWalked
    have h0 : numPages + 1 - 36 = 0 := by omega
    rw [h0]
    rfl
  unfold scrape_all
  rw [hp]
  simp [dedupBy]

/-- C9 witness: at the default `num_pages=35` the run visits nothing and
fails. -/
theorem scrape_all_empty_below_36_witness :
    35 < 36 ∧
    ((scrape_all (fun _ => ["u"]) (fun _ => none) "T" 35).pages = [] ∧
     (scrape_all (fun _ => ["u"]) (fun _ => none) "T" 35).urls = [] ∧
     (scrape_all (fun _ => ["u"]) (fun _ => none) "T" 35).success = false ∧
     (scrape_all (fun _ => ["u"]) (fun _ => none) "T" 35).written = []) :=
  ⟨by decide, scrape_all_empty_below_36 _ _ _ 35 (by decide)⟩

/-- C2 counterexample: with the existing file unreadable,
`web2.save_to_csv` writes the batch with no deduplication
(`web2.py:370-371`), so a batch holding two records with the same natural
key `("Flat A", "Delhi")` but different prices yields a written table whose
keys are not unique — refuting the claim for the unreadable prior state. -/
theorem postmerge_key_uniqueness_fails_on_unreadable :
    writtenTable "T"
        [⟨"Flat A", "Delhi", "1000", "x", "a", "b", "f", "p", "r"⟩,
         ⟨"Flat A", "Delhi", "2000", "x", "a", "b", "f", "p", "r"⟩]
        (.unreadable "badbytes")
      = some [⟨"Flat A", "Delhi", "1000", "x", "a", "b", "f", "p", "r", "T"⟩,
              ⟨"Flat A", "Delhi", "2000", "x", "a", "b", "f", "p", "r", "T"⟩] ∧
    ¬ (([(⟨"Flat A", "Delhi", "1000", "x", "a", "b", "f", "p", "r", "T"⟩ : Row),
         ⟨"Flat A", "Delhi", "2000", "x", "a", "b", "f", "p", "r", "T"⟩].map keyOf).Nodup) := by
  constructor
  · rfl
  · decide

/-- C2 amended: the table written by `web2.save_to_csv` has unique natural
keys when the prior file is absent or readable; when the prior file is
unreadable the batch is written as-is, so uniqueness holds exactly when the
batch itself has no duplicate natural keys. -/
theorem postmerge_key_uniqueness_amended (t : String) (B : List PropertyData) :
    (∀ T, writtenTable t B .absent = some T → (T.map keyOf).Nodup) ∧
    (∀ E T, writtenTable t B (.readable E) = some T → (T.map keyOf).Nodup) ∧
    (∀ c T, (B.map recKey).Nodup → writtenTable t B (.unreadable c) = some T →
      (T.map keyOf).Nodup) := by
  refine ⟨?_, ?_, ?_⟩
  · intro T hT
    by_cases hB : B.isEmpty
    · simp [writtenTable, hB] at hT
    · simp only [writtenTable, hB, Bool.false_eq_true, if_false, Option.some.injEq] at hT
      rw [← hT]
      exact nodup_keys_dedupBy _ _
  · intro E T hT
    by_cases hB : B.isEmpty
    · simp [writtenTable, hB] at hT
    · simp only [writtenTable, hB, Bool.false_eq_true, if_false, Option.some.injEq] at hT
      rw [← hT]
      exact nodup_keys_dedupBy _ _
  · intro c T hnd hT
    by_cases hB : B.isEmpty
    · simp [writtenTable, hB] at hT
    · simp only [writtenTable, hB, Bool.false_eq_true, if_false, Option.some.injEq] at hT
      rw [← hT, map_keyOf_addDate]
      exact hnd

/-- C2 amended, witness: a singleton batch written over an unreadable file
keeps its (trivially unique) key set. -/
theorem postmerge_key_uniqueness_amended_witness :
    (([(⟨"t", "l", "1", "x", "a", "b", "f", "p", "r"⟩ : PropertyData)].map recKey).Nodup) ∧
    (([(⟨"t", "l", "1", "x", "a", "b", "f", "p", "r"⟩ : PropertyData)].map
        (addDate "T")).map keyOf).Nodup :=
  ⟨by decide,
    (postmerge_key_uniqueness_amended "T"
        [⟨"t", "l", "1", "x", "a", "b", "f", "p", "r"⟩]).2.2 "junk"
      ([(⟨"t", "l", "1", "x", "a", "b", "f", "p", "r"⟩ : PropertyData)].map (addDate "T"))
      (by decide) rfl⟩

/-- C4: backup on corrupt table. `web2.save_to_csv` creates a backup file
iff the batch is non-empty and the existing file holds content
`pd.read_csv` rejects; in that case exactly one backup appears, at the
timestamped backup path, holding exactly the prior file's bytes
(`web2.py:360-372`) — so the prior data is never silently discarded and no
other case produces a backup. -/
theorem backup_on_corrupt_only (t : String) (B : List PropertyData) (fs : Option Content) :
    ((saveFS t B fs).2 ≠ [] ↔ (∃ b, fs = some (.corrupt b)) ∧ ¬ B.isEmpty) ∧
    (∀ b, fs = some (.corrupt b) → ¬ B.isEmpty →
      (saveFS t B fs).2 = [(backupName t, .corrupt b)]) := by
  by_cases hB : B.isEmpty
  · simp [saveFS, hB]
  · rcases fs with _ | c
    · simp [saveFS, hB]
    · rcases c with E | b
      · simp [saveFS, hB]
      · simp [saveFS, hB]

/-- C4 witness: a non-empty batch over a corrupt file produces exactly the
one backup entry preserving the corrupt bytes. -/
theorem backup_on_corrupt_only_witness :
    (some (Content.corrupt "bad") = some (Content.corrupt "bad") ∧
      ¬ (([(⟨"t", "l", "1", "x", "a", "b", "f", "p", "r"⟩ : PropertyData)].isEmpty) = true)) ∧
    (saveFS "TS" [⟨"t", "l", "1", "x", "a", "b", "f", "p", "r"⟩]
        (some (.corrupt "bad"))).2 = [(backupName "TS", .corrupt "bad")] :=
  ⟨⟨rfl, by decide⟩, (backup_on_corrupt_only "TS" _ _).2 "bad" rfl (by decide)⟩

/-- C5 counterexample: a listing whose heading selector yields the text
`"AB"` has its mandatory title field set, yet `web2.extract_property_data`
returns no record, because of the extra `len(title) < 3` test at
`web2.py:181` — so "returns no record exactly when the mandatory field is
unset" is false. -/
theorem mandatory_field_rule_counterexample :
    (⟨some "AB", none, none, none, none, none, none, none, none, none⟩
        : ListingContent).heading = some "AB" ∧
    extract_property_data
      ⟨some "AB", none, none, none, none, none, none, none, none, none⟩ = none := by
  constructor
  · rfl
  · decide

/-- C5 amended: detail extraction never raises on missing optional fields
(in `web2.extract_property_data` each missing optional field keeps the
`"N/A"` sentinel), but the drop condition differs from the claim:
`web2.extract_property_data` returns no record exactly when the computed
title is `"N/A"` **or shorter than 3 characters**, while the pure extraction
of `fastscrap3.extract_property_details` always returns a record, keeping
`Property_Title` at `"N/A"` when the page has no `h1` (it never drops a page
for a missing mandatory field). -/
theorem mandatory_field_rule_amended :
    (∀ c : ListingContent, extract_property_data c = none ↔
      (titleOf c = "N/A" ∨ (titleOf c).length < 3)) ∧
    (∀ c : ListingContent, c.locationName = none → c.locRating = none →
      c.furnished = none → c.propType = none → c.priceSpan = none →
      c.priceWrap = none → c.perSqft = none → c.ellipsisText = none →
      titleOf c ≠ "N/A" → ¬ (titleOf c).length < 3 →
      extract_property_data c
        = some ⟨titleOf c, "N/A", "N/A", "N/A", "N/A", "N/A", "N/A", "N/A", "N/A"⟩) ∧
    (∀ url ts : String, ∀ p : DetailPage, p.h1 = none →
      (extract_property_details url ts p).title = "N/A") := by
  refine ⟨?_, ?_, ?_⟩
  · intro c
    unfold extract_property_data
    dsimp only
    split
    · next h => exact iff_of_true rfl h
    · next h => exact iff_of_false (by simp) h
  · intro c h1 h2 h3 h4 h5 h6 h7 h8 h9 h10
    unfold extract_property_data
    dsimp only
    rw [if_neg (by push_neg; exact ⟨h9, by omega⟩)]
    simp [h1, h2, h3, h4, h5, h6, h7, h8]
  · intro url ts p hp
    simp [extract_property_details, hp]

/-- C5 amended, witness: a content with a long-enough title and every
optional field missing yields the all-sentinel record. -/
theorem mandatory_field_rule_amended_witness :
    titleOf ⟨some "Cozy 2BHK Flat", none, none, none, none, none, none, none, none, none⟩
      ≠ "N/A" ∧
    ¬ (titleOf ⟨some "Cozy 2BHK Flat", none, none, none, none, none, none, none, none,
        none⟩).length < 3 ∧
    extract_property_data
        ⟨some "Cozy 2BHK Flat", none, none, none, none, none, none, none, none, none⟩
      = some ⟨titleOf ⟨some "Cozy 2BHK Flat", none, none, none, none, none, none, none,
          none, none⟩, "N/A", "N/A", "N/A", "N/A", "N/A", "N/A", "N/A", "N/A"⟩ :=
  ⟨by decide, by decide,
    mandatory_field_rule_amended.2.1 _ rfl rfl rfl rfl rfl rfl rfl rfl
      (by decide) (by decide)⟩

/-- C6: per-URL failure containment in STEP 2 of `fastscrap3.scrape_all`.
For any deterministic per-URL outcome function and any completion order
(any permutation of the URL list), the collected records number exactly the
succeeding URLs — each succeeding URL contributes its record, each failing
URL contributes nothing, and no failure aborts the batch. -/
theorem detail_collector_failure_containment
    (extract : String → Option DetailRecord) (urls order : List String)
    (hperm : order.Perm urls) :
    (collectDetails extract order).length
      = urls.countP (fun u => (extract u).isSome) ∧
    (∀ u r, u ∈ urls → extract u = some r → r ∈ collectDetails extract order) := by
  constructor
  · have h1 : (collectDetails extract order).length
        = (urls.filterMap extract).length :=
      (hperm.filterMap extract).length_eq
    rw [h1, length_filterMap_eq_countP]
  · intro u r hu hr
    exact List.mem_filterMap.2 ⟨u, hperm.mem_iff.2 hu, hr⟩

/-- C6 witness: 10 URLs of which `u3` and `u7` fail deterministically,
collected in reversed completion order, yield exactly 8 records. -/
theorem detail_collector_failure_containment_witness :
    (["u1", "u2", "u3", "u4", "u5", "u6", "u7", "u8", "u9", "u10"].reverse.Perm
      ["u1", "u2", "u3", "u4", "u5", "u6", "u7", "u8", "u9", "u10"]) ∧
    (collectDetails
        (fun u => if u = "u3" ∨ u = "u7" then none
          else some ⟨u, u, "N/A", "N/A", "N/A", "N/A", "N/A", "N/A", "N/A", "N/A", "N/A",
            "N/A", "N/A", "N/A", "N/A", "N/A", "N/A", "N/A", "N/A", "N/A", "T"⟩)
        ["u1", "u2", "u3", "u4", "u5", "u6", "u7", "u8", "u9", "u10"].reverse).length
      = (["u1", "u2", "u3", "u4", "u5", "u6", "u7", "u8", "u9", "u10"].countP
          (fun u => ((fun u => if u = "u3" ∨ u = "u7" then none
            else some (⟨u, u, "N/A", "N/A", "N/A", "N/A", "N/A", "N/A", "N/A", "N/A",
              "N/A", "N/A", "N/A", "N/A", "N/A", "N/A", "N/A", "N/A", "N/A", "N/A", "T"⟩
                : DetailRecord)) u).isSome)) ∧
    (["u1", "u2", "u3", "u4", "u5", "u6", "u7", "u8", "u9", "u10"].countP
        (fun u => ((fun u => if u = "u3" ∨ u = "u7" then none
          else some (⟨u, u, "N/A", "N/A", "N/A", "N/A", "N/A", "N/A", "N/A", "N/A",
            "N/A", "N/A", "N/A", "N/A", "N/A", "N/A", "N/A", "N/A", "N/A", "N/A", "T"⟩
              : DetailRecord)) u).isSome)) = 8 :=
  ⟨List.reverse_perm _,
    (detail_collector_failure_containment _ _ _ (List.reverse_perm _)).1,
    by decide⟩

/-- A hyperlink target `href` contributes the URL `u`: it passes the keyword
heuristic, its normalisation does not contain `/search/`, and it normalises
to `u`. -/
def keepsUrl (href u : String) : Prop :=
  kwPred href = true ∧ ¬ hasSub (normalizeUrl href) "/search/" = true ∧
    normalizeUrl href = u

theorem mem_urlStep {u href : String} {acc : List String} :
    u ∈ urlStep acc href ↔ u ∈ acc ∨ keepsUrl href u := by
  unfold urlStep keepsUrl
  by_cases hk : kwPred href
  · rw [if_pos hk]
    dsimp only
    by_cases hs : hasSub (normalizeUrl href) "/search/"
    · rw [if_neg (by simp [hs])]
      simp [hs]
    · by_cases hin : normalizeUrl href ∈ acc
      · rw [if_neg (by simp [hin])]
        constructor
        · exact Or.inl
        · rintro (h | ⟨-, -, rfl⟩)
          · exact h
          · exact hin
      · rw [if_pos ⟨hs, hin⟩, List.mem_append, List.mem_singleton]
        constructor
        · rintro (h | rfl)
          · exact Or.inl h
          · exact Or.inr ⟨hk, hs, rfl⟩
        · rintro (h | ⟨-, -, rfl⟩)
          · exact Or.inl h
          · exact Or.inr rfl
  · rw [if_neg hk]
    simp [hk]

theorem mem_urlFold {u : String} : ∀ {links acc : List String},
    u ∈ links.foldl urlStep acc ↔ u ∈ acc ∨ ∃ href ∈ links, keepsUrl href u := by
  intro links
  induction links with
  | nil => simp
  | cons a links ih =>
    intro acc
    rw [List.foldl_cons, ih, mem_urlStep]
    constructor
    · rintro ((h | h) | ⟨href, hm, hk⟩)
      · exact Or.inl h
      · exact Or.inr ⟨a, List.mem_cons_self _ _, h⟩
      · exact Or.inr ⟨href, List.mem_cons_of_mem _ hm, hk⟩
    · rintro (h | ⟨href, hm, hk⟩)
      · exact Or.inl (Or.inl h)
      · rcases List.mem_cons.1 hm with rfl | hm'
        · exact Or.inl (Or.inr hk)
        · exact Or.inr ⟨href, hm', hk⟩

theorem mem_extractUrls3 {u : String} {links : List String} :
    u ∈ extractUrls3 links ↔ ∃ href ∈ links, keepsUrl href u := by
  unfold extractUrls3
  rw [mem_dedupBy_id, mem_urlFold]
  simp

theorem mem_extractUrls2 {u : String} {links : List String} :
    u ∈ extractUrls2 links ↔ ∃ href ∈ links, keepsUrl href u := by
  unfold extractUrls2
  rw [mem_dedupBy_id]
  simp only [List.mem_filterMap, Finset.not_mem_empty, not_false_iff, and_true]
  constructor
  · rintro ⟨href, hmem, heq⟩
    refine ⟨href, hmem, ?_⟩
    by_cases hk : kwPred href
    · by_cases hs : hasSub (normalizeUrl href) "/search/"
      · simp [hk, hs] at heq
      · simp only [hk, if_true, hs, if_false] at heq
        exact ⟨hk, hs, Option.some_inj.1 heq⟩
    · simp [hk] at heq
  · rintro ⟨href, hmem, hk, hs, rfl⟩
    exact ⟨href, hmem, by simp [hk, hs]⟩

/-- C7: order-insensitivity of listing URL extraction. Permuting the
hyperlink list of a listing page leaves the extracted URL set unchanged, for
both `fastscrap3.extract_urls_from_page` and
`webscrap2.extract_urls_from_page`. -/
theorem extract_urls_order_insensitive (links links' : List String)
    (h : links.Perm links') :
    (extractUrls3 links).toFinset = (extractUrls3 links').toFinset ∧
    (extractUrls2 links).toFinset = (extractUrls2 links').toFinset := by
  constructor
  · apply Finset.ext
    intro u
    simp only [List.mem_toFinset, mem_extractUrls3]
    constructor
    · rintro ⟨href, hm, hk⟩
      exact ⟨href, h.mem_iff.1 hm, hk⟩
    · rintro ⟨href, hm, hk⟩
      exact ⟨href, h.mem_iff.2 hm, hk⟩
  · apply Finset.ext
    intro u
    simp only [List.mem_toFinset, mem_extractUrls2]
    constructor
    · rintro ⟨href, hm, hk⟩
      exact ⟨href, h.mem_iff.1 hm, hk⟩
    · rintro ⟨href, hm, hk⟩
      exact ⟨href, h.mem_iff.2 hm, hk⟩

/-- C7 witness: a concrete link list and its reversal yield the same URL
sets under both extractors. -/
theorem extract_urls_order_insensitive_witness :
    (["/2-bhk-flat-spid-A", "nolink", "/search/2-bhk-spid-B",
        "/2-bhk-flat-spid-A"].Perm
      ["/2-bhk-flat-spid-A", "nolink", "/search/2-bhk-spid-B",
        "/2-bhk-flat-spid-A"].reverse) ∧
    ((extractUrls3 ["/2-bhk-flat-spid-A", "nolink", "/search/2-bhk-spid-B",
        "/2-bhk-flat-spid-A"]).toFinset
      = (extractUrls3 ["/2-bhk-flat-spid-A", "nolink", "/search/2-bhk-spid-B",
          "/2-bhk-flat-spid-A"].reverse).toFinset ∧
     (extractUrls2 ["/2-bhk-flat-spid-A", "nolink", "/search/2-bhk-spid-B",
        "/2-bhk-flat-spid-A"]).toFinset
      = (extractUrls2 ["/2-bhk-flat-spid-A", "nolink", "/search/2-bhk-spid-B",
          "/2-bhk-flat-spid-A"].reverse).toFinset) :=
  ⟨(List.reverse_perm _).symm,
    extract_urls_order_insensitive _ _ ((List.reverse_perm _).symm)⟩

/-- C8: stable output schema. Every row written by `fastscrap3.save_to_csv`
has exactly the fixed column count; the cell list of any extracted record
projects each of the 21 columns to the record's actual field value (so no
cell is absent); every field whose pattern found nothing carries the literal
`"N/A"` sentinel (four fields are never extracted and always carry it); and
`web2.extract_property_data` likewise leaves every undetermined field at
`"N/A"`. -/
theorem stable_output_schema :
    (∀ recs row, row ∈ save_to_csv3 recs → row.length = COLUMNS.length) ∧
    (∀ r : DetailRecord, rowFor (recCells r) =
      [r.title, r.location, r.address, r.price, r.ratePerSqft, r.deposit,
       r.propertyType, r.roomType, r.bedrooms, r.bathrooms, r.balconies,
       r.furnishing, r.carpetArea, r.availableFrom, r.availableFor, r.postedBy,
       r.postedDate, r.rating, r.nearbyPlaces, r.scrapedDate, r.url]) ∧
    (∀ url ts : String, ∀ p : DetailPage,
      (p.h1 = none → (extract_property_details url ts p).title = "N/A") ∧
      (p.locationMatch = none → (extract_property_details url ts p).location = "N/A") ∧
      (p.addressMatch = none → (extract_property_details url ts p).address = "N/A") ∧
      (p.priceMatch = none → (extract_property_details url ts p).price = "N/A") ∧
      (p.rateMatch = none → (extract_property_details url ts p).ratePerSqft = "N/A") ∧
      (p.depositMatch = none → (extract_property_details url ts p).deposit = "N/A") ∧
      (p.bedMatch = none → (extract_property_details url ts p).bedrooms = "N/A") ∧
      (p.bathMatch = none → (extract_property_details url ts p).bathrooms = "N/A") ∧
      (p.balconyMatch = none → (extract_property_details url ts p).balconies = "N/A") ∧
      (p.areaMatch = none → (extract_property_details url ts p).carpetArea = "N/A") ∧
      (p.dateMatch = none → (extract_property_details url ts p).postedDate = "N/A") ∧
      (extract_property_details url ts p).roomType = "N/A" ∧
      (extract_property_details url ts p).availableFor = "N/A" ∧
      (extract_property_details url ts p).rating = "N/A" ∧
      (extract_property_details url ts p).nearbyPlaces = "N/A") ∧
    (∀ c pd, extract_property_data c = some pd →
      (c.locationName = none → pd.location = "N/A") ∧
      (c.priceSpan = none → c.priceWrap = none → pd.price = "N/A") ∧
      (c.propType = none → pd.propertyType = "N/A") ∧
      (c.ellipsisText = none → pd.area = "N/A") ∧
      (c.perSqft = none → pd.bedrooms = "N/A") ∧
      (c.furnished = none → pd.furnishing = "N/A") ∧
      pd.postedBy = "N/A" ∧
      (c.locRating = none → pd.rating = "N/A")) := by
  refine ⟨?_, ?_, ?_, ?_⟩
  · intro recs row h
    rcases List.mem_map.1 h with ⟨r, -, rfl⟩
    unfold rowFor
    rw [List.length_map]
  · intro r
    rfl
  · intro url ts p
    refine ⟨fun h => by simp [extract_property_details, h],
      fun h => by simp [extract_property_details, h],
      fun h => by simp [extract_property_details, h],
      fun h => by simp [extract_property_details, h],
      fun h => by simp [extract_property_details, h],
      fun h => by simp [extract_property_details, h],
      fun h => by simp [extract_property_details, h],
      fun h => by simp [extract_property_details, h],
      fun h => by simp [extract_property_details, h],
      fun h => by simp [extract_property_details, h],
      fun h => by simp [extract_property_details, h],
      by simp [extract_property_details], by simp [extract_property_details],
      by simp [extract_property_details], by simp [extract_property_details]⟩
  · intro c pd h
    unfold extract_property_data at h
    dsimp only at h
    split at h
    · exact absurd h (by simp)
    · cases h
      refine ⟨fun h1 => by simp [h1], fun h5 h6 => by simp [h5, h6],
        fun h4 => by simp [h4], fun h8 => by simp [h8], fun h7 => by simp [h7],
        fun h3 => by simp [h3], rfl, fun h2 => by simp [h2]⟩

/-- C8 witness: a page with no `h1` still yields a record whose title cell
is the `"N/A"` sentinel. -/
theorem stable_output_schema_witness :
    (⟨none, "", none, none, none, none, none, none, none, none, none, none, none⟩
      : DetailPage).h1 = none ∧
    (extract_property_details "u" "T"
      ⟨none, "", none, none, none, none, none, none, none, none, none, none,
        none⟩).title = "N/A" :=
  ⟨rfl, (stable_output_schema.2.2.1 "u" "T" _).1 rfl⟩

/-- C10 counterexample: `fastscrap3.save_to_csv` writes with
`df.to_csv(filename)`, which overwrites a pre-existing file that happens to
bear the generated `dataset_optimized_<timestamp>.csv` name — so "every file
present before the call has unchanged content after it" is false when such a
file exists. -/
theorem save_csv3_overwrite_counterexample :
    (fun name => if name = csvName "20250101_000000"
      then some [["old"]] else none) (csvName "20250101_000000") = some [["old"]] ∧
    saveCsv3FS "20250101_000000"
      [⟨"t", "u", "N/A", "N/A", "N/A", "N/A", "N/A", "N/A", "N/A", "N/A", "N/A",
        "N/A", "N/A", "N/A", "N/A", "N/A", "N/A", "N/A", "N/A", "N/A", "T"⟩]
      (fun name => if name = csvName "20250101_000000" then some [["old"]] else none)
      (csvName "20250101_000000") ≠ some [["old"]] := by
  constructor
  · simp
  · decide

/-- C10 amended: `fastscrap3.save_to_csv` writes only to the generated
`dataset_optimized_<timestamp>.csv` name — every file under any other name
keeps its content — and the written table is computed from the records
alone, never reading any pre-existing file; but a pre-existing file bearing
the generated name itself is overwritten. -/
theorem save_csv3_frame_amended (t : String) (recs : List DetailRecord)
    (fs : String → Option (List (List String))) (name : String)
    (h : name ≠ csvName t) :
    saveCsv3FS t recs fs name = fs name ∧
    saveCsv3FS t recs fs (csvName t) = some (save_to_csv3 recs) := by
  constructor
  · simp [saveCsv3FS, h]
  · simp [saveCsv3FS]

/-- C10 amended, witness: a file named `other.csv` is untouched by the
save. -/
theorem save_csv3_frame_amended_witness :
    ("other.csv" ≠ csvName "20250101_000000") ∧
    (saveCsv3FS "20250101_000000" [] (fun _ => some [["keep"]]) "other.csv"
        = (fun _ => some ([["keep"]] : List (List String))) "other.csv" ∧
      saveCsv3FS "20250101_000000" [] (fun _ => some [["keep"]])
        (csvName "20250101_000000") = some (save_to_csv3 [])) :=
  ⟨by decide,
    save_csv3_frame_amended "20250101_000000" [] (fun _ => some [["keep"]])
      "other.csv" (by decide)⟩

end Estate
